import Mathlib

/-!
Verification of the procedural simulation layer of the galaxyGPU repository.

The shader (TSL) and host (JS) code is shallowly embedded over exact
arithmetic: `ℚ` where the code only uses field operations, `floor` and
comparisons, and `ℝ` where `sqrt`, `sin` and `cos` appear.  GLSL-style
primitives (`fract`, `mix`, `smoothstep`, `clamp`) are given their standard
mathematical definitions.
-/

/- ## HashField — `hash` from src/components/Galaxy.jsx (lines 24–27) -/

/-- GLSL `fract`: `x - floor(x)`, always in `[0,1)`. -/
def fractQ (x : ℚ) : ℚ := x - ⌊x⌋

/-- The repository's `hash`: `const h = seed.fract().mul(0.1031);
`return h.mul(h.add(33.33)).mul(h.add(h)).fract();`. -/
def hashTSL (seed : ℚ) : ℚ :=
  let h := fractQ seed * 0.1031
  fractQ (h * (h + 33.33) * (h + h))

/-- The spec's reference law for `hash` (spec §4.1):
`h = fract(seed·0.1031); return fract(h·(h+33.33)·2h)`.
Kept separate from `hashTSL` so the two can be compared. -/
def hashSpecLaw (seed : ℚ) : ℚ :=
  let h := fractQ (seed * 0.1031)
  fractQ (h * (h + 33.33) * (h + h))

/- ## Chain length control — AirshipController.jsx (lines 511–523) -/

structure ChainParams where
  chainRestLength : ℚ
  chainMinLength : ℚ
  reelSpeed : ℚ
  extendSpeed : ℚ

/-- One frame of the chain-length controller: while `lasso` (reel) is held
the length shortens at `reelSpeed·delta` clamped to `chainMinLength`;
otherwise it relaxes toward `chainRestLength` at `extendSpeed·delta`
without overshooting. -/
def chainStep (P : ChainParams) (lasso : Bool) (delta : ℚ) (prev : ℚ) : ℚ :=
  if lasso then
    max (prev - P.reelSpeed * delta) P.chainMinLength
  else if prev < P.chainRestLength then
    min (prev + P.extendSpeed * delta) P.chainRestLength
  else
    prev

/-- Folding `chainStep` over a sequence of `(reel input, frame time)` pairs. -/
def chainRun (P : ChainParams) (inputs : List (Bool × ℚ)) (len0 : ℚ) : ℚ :=
  inputs.foldl (fun len i => chainStep P i.1 i.2 len) len0

/- ## FBM — `fbm` from Spiral.jsx (terrain Planet, lines 433–448)

`cnoise` lives in Perlin.jsx which is not part of the analysed sources, so
the noise primitive is an explicit function parameter `noise x y z`. -/

/-- The loop body of `fbm`: each octave samples
`cnoise(vec3(p.x·currFreq, 0, p.z·currFreq))·currAmp`, accumulates it, and
then multiplies the frequency by `lacunarity` and the amplitude by
`persistence`. -/
def fbmLoop (noise : ℚ → ℚ → ℚ → ℚ) (px pz lacunarity persistence : ℚ) :
    ℕ → ℚ → ℚ → ℚ → ℚ
  | 0, _, _, total => total
  | n + 1, currFreq, currAmp, total =>
      fbmLoop noise px pz lacunarity persistence n
        (currFreq * lacunarity) (currAmp * persistence)
        (total + noise (px * currFreq) 0 (pz * currFreq) * currAmp)

/-- `fbm(pos, octaves, frequency, amplitude, lacunarity, persistence)`:
accumulator starts at 0, frequency and amplitude start at the given
initial values. -/
def fbm (noise : ℚ → ℚ → ℚ → ℚ) (px pz : ℚ) (octaves : ℕ)
    (frequency amplitude lacunarity persistence : ℚ) : ℚ :=
  fbmLoop noise px pz lacunarity persistence octaves frequency amplitude 0

/- ## Terrain grid snapping — Spiral.jsx lines 560–591 / Planet.jsx lines 63–95 -/

/-- One component of the snapped offset:
`uCameraPosition.c.div(uSegmentSize).floor().mul(uSegmentSize)`. -/
def snapComponent (cellSize p : ℚ) : ℚ := ⌊p / cellSize⌋ * cellSize

/-- `worldOffset = vec3(snapX, 0.0, snapZ)` built from the follow position's
x and z components. -/
def worldOffset (cellSize px pz : ℚ) : ℚ × ℚ × ℚ :=
  (snapComponent cellSize px, 0, snapComponent cellSize pz)

/- ## Biome colour blend — `colorNode` of the terrain Planet,
Spiral.jsx lines 600–629.  Texture fetches are modelled as the fetched
colour values `tWater`, `tSand`, `tGrass`, `tRock`. -/

structure V3 where
  x : ℚ
  y : ℚ
  z : ℚ
deriving DecidableEq

/-- GLSL `clamp(x, lo, hi) = min(max(x, lo), hi)`. -/
def clampQ (x lo hi : ℚ) : ℚ := min (max x lo) hi

/-- GLSL `smoothstep(e0, e1, x)`: Hermite interpolation of the clamped
normalized position. -/
def smoothstepQ (e0 e1 x : ℚ) : ℚ :=
  let t := clampQ ((x - e0) / (e1 - e0)) 0 1
  t * t * (3 - 2 * t)

/-- GLSL `mix(a, b, t) = a + (b - a)·t`, one component. -/
def mixQ (a b t : ℚ) : ℚ := a + (b - a) * t

/-- `mix` on colours, componentwise with a scalar weight. -/
def mixV (a b : V3) (t : ℚ) : V3 :=
  ⟨mixQ a.x b.x t, mixQ a.y b.y t, mixQ a.z b.z t⟩

structure BiomeBands where
  sandStart : ℚ
  sandEnd : ℚ
  grassStart : ℚ
  grassEnd : ℚ
  rockStart : ℚ
  rockEnd : ℚ

/-- The terrain `colorNode`: start from the water texture, then mix in
sand, grass and rock in that fixed order, each weighted by its own
`smoothstep` of the vertex height `h`. -/
def terrainColor (B : BiomeBands) (tWater tSand tGrass tRock : V3) (h : ℚ) : V3 :=
  let finalColor := tWater
  let sandMix := smoothstepQ B.sandStart B.sandEnd h
  let finalColor := mixV finalColor tSand sandMix
  let grassMix := smoothstepQ B.grassStart B.grassEnd h
  let finalColor := mixV finalColor tGrass grassMix
  let rockMix := smoothstepQ B.rockStart B.rockEnd h
  let finalColor := mixV finalColor tRock rockMix
  finalColor

/- ## GameJuice — GameJuice.jsx -/

/-- The module-level `juiceState` record. -/
structure JuiceState where
  hitstopRemaining : ℚ
  shakeIntensity : ℚ
  shakeDuration : ℚ
  shakeDecay : ℚ
  slowMoFactor : ℚ
  slowMoRemaining : ℚ
  slowMoTarget : ℚ
deriving DecidableEq

/-- `juiceState` as initialised at module load. -/
def initialJuice : JuiceState :=
  ⟨0, 0, 0, 9/10, 1, 0, 1⟩

/-- The state touched by `GameJuiceProcessor`'s frame callback: the juice
record, the camera position, and the two refs `isShaking` /
`originalCamPos`. -/
structure FrameState where
  juice : JuiceState
  camX : ℚ
  camY : ℚ
  camZ : ℚ
  isShaking : Bool
  origX : ℚ
  origY : ℚ
  origZ : ℚ
deriving DecidableEq

/-- `triggerShake(intensity, duration)`: both fields take the max of the
current and the requested value. -/
def triggerShake (intensity duration : ℚ) (s : FrameState) : FrameState :=
  { s with juice :=
      { s.juice with
          shakeIntensity := max s.juice.shakeIntensity intensity
          shakeDuration := max s.juice.shakeDuration duration } }

/-- One frame of `GameJuiceProcessor`'s `useFrame` callback.  `rx`, `ry`
stand for the two `Math.random()` draws of that frame. -/
def processFrame (rx ry dt : ℚ) (s : FrameState) : FrameState :=
  -- === HITSTOP ===
  let hitstopRemaining :=
    if 0 < s.juice.hitstopRemaining then s.juice.hitstopRemaining - dt
    else s.juice.hitstopRemaining
  let s : FrameState :=
    { s with juice := { s.juice with hitstopRemaining := hitstopRemaining } }
  -- === SCREEN SHAKE ===
  let s : FrameState :=
    if 0 < s.juice.shakeDuration then
      -- save original position on first shake frame
      let origX := if s.isShaking then s.origX else s.camX
      let origY := if s.isShaking then s.origY else s.camY
      let origZ := if s.isShaking then s.origZ else s.camZ
      -- apply random offset based on intensity
      let offsetX := (rx - 1/2) * 2 * s.juice.shakeIntensity
      let offsetY := (ry - 1/2) * 2 * s.juice.shakeIntensity
      { s with
          isShaking := true
          origX := origX, origY := origY, origZ := origZ
          camX := origX + offsetX
          camY := origY + offsetY
          juice := { s.juice with
              shakeDuration := s.juice.shakeDuration - dt
              shakeIntensity := s.juice.shakeIntensity * s.juice.shakeDecay } }
    else if s.isShaking then
      -- restore original position when shake ends
      { s with
          camX := s.origX
          camY := s.origY
          isShaking := false
          juice := { s.juice with shakeIntensity := 0 } }
    else s
  -- === SLOW MOTION ===
  if 0 < s.juice.slowMoRemaining then
    let slowMoRemaining := s.juice.slowMoRemaining - dt
    if slowMoRemaining ≤ 0 then
      { s with juice := { s.juice with
          slowMoRemaining := slowMoRemaining, slowMoFactor := 1, slowMoTarget := 1 } }
    else
      { s with juice := { s.juice with slowMoRemaining := slowMoRemaining } }
  else s

/- ## Real-valued embeddings (sqrt / sin / cos appear in the code) -/

structure V3R where
  x : ℝ
  y : ℝ
  z : ℝ

/-- GLSL `fract` over `ℝ`. -/
noncomputable def fractR (x : ℝ) : ℝ := x - ⌊x⌋

/-- The repository's `hash` over `ℝ` (same formula as `hashTSL`). -/
noncomputable def hashR (seed : ℝ) : ℝ :=
  let h := fractR seed * 0.1031
  fractR (h * (h + 33.33) * (h + h))

/-- `rotateXZ(p, angle)` from Galaxy.jsx lines 29–37: a 2-D rotation in the
XZ plane, leaving y untouched. -/
noncomputable def rotateXZ (p : V3R) (angle : ℝ) : V3R :=
  let cosA := Real.cos angle
  let sinA := Real.sin angle
  ⟨p.x * cosA - p.z * sinA, p.y, p.x * sinA + p.z * cosA⟩

/- ### `computeInit` — Galaxy.jsx lines 39–100, per particle index -/

namespace GalaxyInit

def armCount : ℝ := 4
def galaxyRadius : ℝ := 50
def spiralTightness : ℝ := 2
def armWidth : ℝ := 8
def thickness : ℝ := 5
def randomness : ℝ := 5

/-- `const seed = idx.toFloat();` -/
def seed (i : ℕ) : ℝ := i

/-- `hash(seed.add(1)).pow(0.5).mul(galaxyRadius)`; `pow 0.5` is the square
root (the hash value is non-negative). -/
noncomputable def radius (i : ℕ) : ℝ := Real.sqrt (hashR (seed i + 1)) * galaxyRadius

noncomputable def normalizedRadius (i : ℕ) : ℝ := radius i / galaxyRadius

/-- `hash(seed.add(2)).mul(armCount).floor()` -/
noncomputable def armIndex (i : ℕ) : ℝ := ⌊hashR (seed i + 2) * armCount⌋

noncomputable def armAngle (i : ℕ) : ℝ := armIndex i * 6.28318 / armCount

noncomputable def spiralAngle (i : ℕ) : ℝ := normalizedRadius i * spiralTightness * 6.28318

noncomputable def totalAngle (i : ℕ) : ℝ := armAngle i + spiralAngle i

noncomputable def radiusOffset (i : ℕ) : ℝ := (hashR (seed i + 3) - 0.5) * 2 * armWidth

noncomputable def angleOffset (i : ℕ) : ℝ :=
  (hashR (seed i + 4) - 0.5) * 2 * randomness / (radius i + 1)

noncomputable def finalAngle (i : ℕ) : ℝ := totalAngle i + angleOffset i

noncomputable def finalRadius (i : ℕ) : ℝ := radius i + radiusOffset i

/-- `const x = cos(finalAngle).mul(finalRadius);` -/
noncomputable def posX (i : ℕ) : ℝ := Real.cos (finalAngle i) * finalRadius i

/-- `const z = sin(finalAngle).mul(finalRadius);` -/
noncomputable def posZ (i : ℕ) : ℝ := Real.sin (finalAngle i) * finalRadius i

noncomputable def maxThickness (i : ℕ) : ℝ := thickness * (1 - normalizedRadius i * 0.7)

noncomputable def posY (i : ℕ) : ℝ := (hashR (seed i + 5) - 0.5) * 2 * maxThickness i

noncomputable def radialSparsity (i : ℕ) : ℝ := |radiusOffset i| / (armWidth * 0.5 + 0.01)

noncomputable def angularSparsity (i : ℕ) : ℝ := |angleOffset i| / (randomness * 0.5 + 0.01)

/-- `densityFactor[i]`, `radialSparsity.add(angularSparsity).mul(0.5).min(1.0)`. -/
noncomputable def densityFactor (i : ℕ) : ℝ :=
  min ((radialSparsity i + angularSparsity i) * 0.5) 1

end GalaxyInit

/- ### `computeUpdate` — Galaxy.jsx lines 102–126, per particle -/

namespace GalaxyUpdate

/-- One `advance(dt)` step on a particle's `(position, velocity)` pair:
`rotationRate = 1/(0.1·distFromCenter + 1)`, rotate both vectors about Y
by `rotationRate·dt·0.5`. -/
noncomputable def advance (deltaTime : ℝ) (s : V3R × V3R) : V3R × V3R :=
  let position := s.1
  let velocity := s.2
  let distFromCenter := Real.sqrt (position.x ^ 2 + position.z ^ 2)
  let rotationFactor := 1 / (distFromCenter * 0.1 + 1)
  let rotationAmount := rotationFactor * deltaTime * 0.5
  (rotateXZ position rotationAmount, rotateXZ velocity rotationAmount)

/-- `length(vec2(position.x, position.z))`. -/
noncomputable def lengthXZ (p : V3R) : ℝ := Real.sqrt (p.x ^ 2 + p.z ^ 2)

end GalaxyUpdate

/- ### Tether spring constraint — Anchor.jsx lines 78–110 -/

namespace Tether

/-- `distance = |anchorPos - shipPos|`. -/
noncomputable def dist (ship anchor : V3R) : ℝ :=
  Real.sqrt ((anchor.x - ship.x) ^ 2 + (anchor.y - ship.y) ^ 2 + (anchor.z - ship.z) ^ 2)

/-- The anchor velocity component along the normalized ship→anchor offset. -/
noncomputable def radialVelocity (ship anchor vel : V3R) : ℝ :=
  vel.x * ((anchor.x - ship.x) / dist ship anchor) +
  vel.y * ((anchor.y - ship.y) / dist ship anchor) +
  vel.z * ((anchor.z - ship.z) / dist ship anchor)

/-- The impulse applied by the spring-constraint block: zero unless
`distance > chainLength`; otherwise
`(F_spring + F_damping) · direction · delta` with
`F_spring = -stretch·springStiffness` and
`F_damping = -radialVelocity·springDamping`. -/
noncomputable def springImpulse (springStiffness springDamping chainLength delta : ℝ)
    (ship anchor vel : V3R) : V3R :=
  let distance := dist ship anchor
  if chainLength < distance then
    let nx := (anchor.x - ship.x) / distance
    let ny := (anchor.y - ship.y) / distance
    let nz := (anchor.z - ship.z) / distance
    let stretch := distance - chainLength
    let springForce := -stretch * springStiffness
    let dampingForce := -(radialVelocity ship anchor vel) * springDamping
    let totalForce := springForce + dampingForce
    ⟨nx * totalForce * delta, ny * totalForce * delta, nz * totalForce * delta⟩
  else
    ⟨0, 0, 0⟩

/-- Dot product of an impulse with the ship→anchor offset: positive means
the impulse pushes the anchor further away from the ship, negative means
it pulls it back toward the ship. -/
def outwardComponent (ship anchor imp : V3R) : ℝ :=
  imp.x * (anchor.x - ship.x) + imp.y * (anchor.y - ship.y) + imp.z * (anchor.z - ship.z)

end Tether

/- ## Helper lemmas -/

lemma fractQ_intCast (n : ℤ) : fractQ n = 0 := by
  simp [fractQ]

lemma mixV_one (a b : V3) : mixV a b 1 = b := by
  cases a
  cases b
  simp [mixV, mixQ]

lemma mixV_zero (a b : V3) : mixV a b 0 = a := by
  cases a
  cases b
  simp [mixV, mixQ]

lemma chainStep_mem (P : ChainParams) (hP : P.chainMinLength ≤ P.chainRestLength)
    (hreel : 0 ≤ P.reelSpeed) (hext : 0 ≤ P.extendSpeed)
    (lasso : Bool) (delta : ℚ) (hd : 0 ≤ delta) (len : ℚ)
    (h : P.chainMinLength ≤ len ∧ len ≤ P.chainRestLength) :
    P.chainMinLength ≤ chainStep P lasso delta len ∧
      chainStep P lasso delta len ≤ P.chainRestLength := by
  have hrd : 0 ≤ P.reelSpeed * delta := mul_nonneg hreel hd
  have hed : 0 ≤ P.extendSpeed * delta := mul_nonneg hext hd
  unfold chainStep
  split_ifs with h1 h2
  · exact ⟨le_max_right _ _, max_le (by linarith [h.2]) hP⟩
  · exact ⟨le_min (by linarith [h.1]) hP, min_le_right _ _⟩
  · exact h

/- ## Claim theorems -/

/-- C1: the repository's `hash` does not satisfy the spec's reference law
`h = fract(seed·0.1031); fract(h·(h+33.33)·2h)`: because the code computes
`h = fract(seed)·0.1031`, it returns 0 for every integer seed (and
`computeInit` only ever passes the integer seeds `i+1 … i+5`), while the
reference law returns ≈0.7108 at seed 1. -/
theorem hash_integer_collapse :
    (∀ n : ℤ, hashTSL n = 0) ∧
      hashSpecLaw 1 = 710761628182 / 1000000000000 := by
  constructor
  · intro n
    simp [hashTSL, fractQ_intCast, fractQ]
  · norm_num [hashSpecLaw, fractQ]

/-- C4 (counterexample): two follow positions differing by less than one
grid cell (cell size 1, the configured `segmentSize`) can still produce
different snapped offsets, refuting "for any two followPosition values
differing by less than one grid cell the snapped offset is identical". -/
theorem snap_subcell_counterexample :
    |(1/2 : ℚ) - 5/4| < 1 ∧ worldOffset 1 (1/2) 0 ≠ worldOffset 1 (5/4) 0 := by
  constructor
  · rw [abs_sub_lt_iff]
    norm_num
  · intro hEq
    have h1 := congrArg Prod.fst hEq
    simp only [worldOffset, snapComponent] at h1
    norm_num at h1

/-- C4 (amended): the snapped offset is `floor(p/cellSize)·cellSize`
componentwise; follow positions in the same grid cell snap identically;
and two positions less than one cell apart that straddle a cell boundary
snap one whole cell apart. -/
theorem snap_quantization (c px pz a b : ℚ) (hc : 0 < c) :
    worldOffset c px pz = (⌊px / c⌋ * c, 0, ⌊pz / c⌋ * c) ∧
      (⌊a / c⌋ = ⌊b / c⌋ → snapComponent c a = snapComponent c b) ∧
      (a ≤ b → b - a < c → ⌊a / c⌋ ≠ ⌊b / c⌋ →
        snapComponent c b = snapComponent c a + c) := by
  refine ⟨rfl, fun h => by simp [snapComponent, h], fun hab hlt hne => ?_⟩
  have h1 : ⌊a / c⌋ ≤ ⌊b / c⌋ := Int.floor_le_floor (by gcongr)
  have h2 : b / c ≤ a / c + 1 := by
    have hq : (b - a) / c < 1 := (div_lt_one hc).mpr hlt
    rw [sub_div] at hq
    linarith
  have h3 : ⌊b / c⌋ ≤ ⌊a / c⌋ + 1 := by
    have := Int.floor_le_floor h2 (α := ℚ)
    rwa [Int.floor_add_one] at this
  have h4 : ⌊b / c⌋ = ⌊a / c⌋ + 1 := by omega
  simp only [snapComponent, h4]
  push_cast
  ring

/-- C4 witness. -/
theorem snap_quantization_witness :
    (0 : ℚ) < 1 ∧ snapComponent 1 (5/4) = snapComponent 1 (1/2) + 1 :=
  ⟨by norm_num,
    (snap_quantization 1 (1/2) 0 (1/2) (5/4) (by norm_num)).2.2
      (by norm_num) (by norm_num) (by norm_num)⟩

/-- C5: with one octave, `fbm` is a single noise sample at the point scaled
by the initial frequency, multiplied by the initial amplitude. -/
theorem fbm_one_octave (noise : ℚ → ℚ → ℚ → ℚ)
    (px pz frequency amplitude lacunarity persistence : ℚ) :
    fbm noise px pz 1 frequency amplitude lacunarity persistence =
      noise (px * frequency) 0 (pz * frequency) * amplitude := by
  simp [fbm, fbmLoop]

/-- C6: the biome blend is the fixed-order nested mix
water → sand → grass → rock, each weighted by its own smoothstep of the
height, with no assumption whatsoever on the ordering of the thresholds;
a later band whose smoothstep weight saturates at 1 fully overrides all
earlier bands, and bands with weight 0 leave the earlier result intact. -/
theorem biome_blend_order (B : BiomeBands) (tWater tSand tGrass tRock : V3) (h : ℚ) :
    terrainColor B tWater tSand tGrass tRock h =
        mixV (mixV (mixV tWater tSand (smoothstepQ B.sandStart B.sandEnd h))
          tGrass (smoothstepQ B.grassStart B.grassEnd h))
          tRock (smoothstepQ B.rockStart B.rockEnd h) ∧
      (smoothstepQ B.rockStart B.rockEnd h = 1 →
        terrainColor B tWater tSand tGrass tRock h = tRock) ∧
      (smoothstepQ B.grassStart B.grassEnd h = 1 →
        smoothstepQ B.rockStart B.rockEnd h = 0 →
        terrainColor B tWater tSand tGrass tRock h = tGrass) ∧
      (smoothstepQ B.sandStart B.sandEnd h = 0 →
        smoothstepQ B.grassStart B.grassEnd h = 0 →
        smoothstepQ B.rockStart B.rockEnd h = 0 →
        terrainColor B tWater tSand tGrass tRock h = tWater) := by
  refine ⟨rfl, fun hr => ?_, fun hg hr => ?_, fun hs hg hr => ?_⟩
  · simp [terrainColor, hr, mixV_one]
  · simp [terrainColor, hg, hr, mixV_one, mixV_zero]
  · simp [terrainColor, hs, hg, hr, mixV_zero]

/-- C6 witness: with the default thresholds and a height on the rock
plateau, the rock band fully overrides the earlier bands. -/
theorem biome_blend_order_witness :
    smoothstepQ (6 : ℚ) 8 10 = 1 ∧
      terrainColor ⟨-1, 3/2, 3/2, 3, 6, 8⟩ ⟨0, 0, 1⟩ ⟨1, 1, 0⟩ ⟨0, 1, 0⟩
        ⟨1/2, 1/2, 1/2⟩ 10 = ⟨1/2, 1/2, 1/2⟩ :=
  ⟨by norm_num [smoothstepQ, clampQ],
    (biome_blend_order ⟨-1, 3/2, 3/2, 3, 6, 8⟩ ⟨0, 0, 1⟩ ⟨1, 1, 0⟩ ⟨0, 1, 0⟩
      ⟨1/2, 1/2, 1/2⟩ 10).2.1 (by norm_num [smoothstepQ, clampQ])⟩

/-- C8: starting inside `[chainMinLength, chainRestLength]`, the chain
length never leaves that interval under any sequence of reel inputs and
positive frame times. -/
theorem chainLength_interval_invariant (P : ChainParams)
    (hP : P.chainMinLength ≤ P.chainRestLength)
    (hreel : 0 ≤ P.reelSpeed) (hext : 0 ≤ P.extendSpeed)
    (inputs : List (Bool × ℚ)) (hdt : ∀ p ∈ inputs, 0 < p.2) (len0 : ℚ)
    (h0 : P.chainMinLength ≤ len0 ∧ len0 ≤ P.chainRestLength) :
    P.chainMinLength ≤ chainRun P inputs len0 ∧
      chainRun P inputs len0 ≤ P.chainRestLength := by
  induction inputs generalizing len0 with
  | nil => exact h0
  | cons p rest ih =>
      have hstep := chainStep_mem P hP hreel hext p.1 p.2
        (le_of_lt (hdt p (List.mem_cons_self p rest))) len0 h0
      exact ih (fun q hq => hdt q (List.mem_cons_of_mem p hq)) _ hstep

/-- C8 witness. -/
theorem chainLength_interval_invariant_witness :
    (2 : ℚ) ≤ chainRun ⟨6, 2, 8, 15⟩ [(true, 1/60), (false, 1/60), (true, 1)] 6 ∧
      chainRun ⟨6, 2, 8, 15⟩ [(true, 1/60), (false, 1/60), (true, 1)] 6 ≤ 6 :=
  chainLength_interval_invariant ⟨6, 2, 8, 15⟩ (by norm_num) (by norm_num)
    (by norm_num) _ (by intro p hp; fin_cases hp <;> norm_num) 6
    ⟨by norm_num, by norm_num⟩

/-- C9: `triggerShake` is max-wins for both intensity and duration, so a
0.3 shake followed by a 0.1 shake stays at 0.3; the pre-shake camera
origin is saved on the first shake frame, held while the shake is active,
and on the first processor frame that observes the duration at zero or
below, the camera x/y are restored exactly to that saved origin and the
shake state resets. -/
theorem shake_max_wins_and_restore :
    (∀ cx cy cz : ℚ,
      (triggerShake (1/10) (3/20) (triggerShake (3/10) (3/20)
        ⟨initialJuice, cx, cy, cz, false, 0, 0, 0⟩)).juice.shakeIntensity = 3/10 ∧
      (triggerShake (1/10) (3/20) (triggerShake (3/10) (3/20)
        ⟨initialJuice, cx, cy, cz, false, 0, 0, 0⟩)).juice.shakeDuration = 3/20) ∧
    (∀ (s : FrameState) (i d : ℚ),
      (triggerShake i d s).juice.shakeIntensity = max s.juice.shakeIntensity i ∧
      (triggerShake i d s).juice.shakeDuration = max s.juice.shakeDuration d) ∧
    (∀ (s : FrameState) (rx ry dt : ℚ), s.isShaking = true →
      s.juice.shakeDuration ≤ 0 →
      (processFrame rx ry dt s).camX = s.origX ∧
      (processFrame rx ry dt s).camY = s.origY ∧
      (processFrame rx ry dt s).isShaking = false ∧
      (processFrame rx ry dt s).juice.shakeIntensity = 0) ∧
    (∀ (s : FrameState) (rx ry dt : ℚ), s.isShaking = false →
      0 < s.juice.shakeDuration →
      (processFrame rx ry dt s).origX = s.camX ∧
      (processFrame rx ry dt s).origY = s.camY ∧
      (processFrame rx ry dt s).isShaking = true) ∧
    (∀ (s : FrameState) (rx ry dt : ℚ), s.isShaking = true →
      0 < s.juice.shakeDuration →
      (processFrame rx ry dt s).origX = s.origX ∧
      (processFrame rx ry dt s).origY = s.origY ∧
      (processFrame rx ry dt s).isShaking = true) := by
  refine ⟨fun cx cy cz => ?_, fun s i d => ?_, fun s rx ry dt hsh hdur => ?_,
    fun s rx ry dt hsh hdur => ?_, fun s rx ry dt hsh hdur => ?_⟩
  · simp [triggerShake, initialJuice]
    norm_num
  · simp [triggerShake]
  · have hdur' : ¬ 0 < s.juice.shakeDuration := not_lt.mpr hdur
    simp only [processFrame]
    simp [hdur', hsh]
    split_ifs <;> simp
  · simp only [processFrame]
    simp [hdur, hsh]
    split_ifs <;> simp
  · simp only [processFrame]
    simp [hdur, hsh]
    split_ifs <;> simp

/-- C9 witness: a shake of intensity 0.3 then 0.1 from the initial state
keeps intensity 0.3 and duration 0.15; and a one-frame run that observes
an expired shake restores the saved origin. -/
theorem shake_max_wins_and_restore_witness :
    ((triggerShake (1/10) (3/20) (triggerShake (3/10) (3/20)
        ⟨initialJuice, 7, 8, 9, false, 0, 0, 0⟩)).juice.shakeIntensity = 3/10) ∧
      ((⟨initialJuice, 1, 2, 3, true, 4, 5, 6⟩ : FrameState).isShaking = true ∧
        (⟨initialJuice, 1, 2, 3, true, 4, 5, 6⟩ : FrameState).juice.shakeDuration ≤ 0 ∧
        (processFrame 0 1 (1/60) ⟨initialJuice, 1, 2, 3, true, 4, 5, 6⟩).camX = 4 ∧
        (processFrame 0 1 (1/60) ⟨initialJuice, 1, 2, 3, true, 4, 5, 6⟩).camY = 5) :=
  ⟨(shake_max_wins_and_restore.1 7 8 9).1,
    rfl,
    by norm_num [initialJuice],
    (shake_max_wins_and_restore.2.2.1 ⟨initialJuice, 1, 2, 3, true, 4, 5, 6⟩
      0 1 (1/60) rfl (by norm_num [initialJuice])).1,
    (shake_max_wins_and_restore.2.2.1 ⟨initialJuice, 1, 2, 3, true, 4, 5, 6⟩
      0 1 (1/60) rfl (by norm_num [initialJuice])).2.1⟩

/-- C10: no branch of the shake processor ever writes the camera's z
coordinate: the random offset touches only x and y, and so does the
end-of-shake restoration. -/
theorem shake_never_touches_camZ (rx ry dt : ℚ) (s : FrameState) :
    (processFrame rx ry dt s).camZ = s.camZ := by
  simp only [processFrame]
  split_ifs <;> simp

/- ## Real-valued helper lemmas -/

lemma fractR_intCast (n : ℤ) : fractR n = 0 := by
  simp [fractR]

lemma hashR_intCast (n : ℤ) : hashR n = 0 := by
  simp [hashR, fractR_intCast, fractR]

lemma hashR_seed_add (i k : ℕ) : hashR (GalaxyInit.seed i + (k : ℝ)) = 0 := by
  have h : GalaxyInit.seed i + (k : ℝ) = (((i + k : ℕ) : ℤ) : ℝ) := by
    simp only [GalaxyInit.seed]
    push_cast
    ring
  rw [h, hashR_intCast]

lemma rotateXZ_sq (p : V3R) (a : ℝ) :
    (rotateXZ p a).x ^ 2 + (rotateXZ p a).z ^ 2 = p.x ^ 2 + p.z ^ 2 := by
  simp only [rotateXZ]
  linear_combination (p.x ^ 2 + p.z ^ 2) * Real.sin_sq_add_cos_sq a

/-- C2: after the initialize pass, every particle has `densityFactor` in
`[0,1]` and its XZ distance from the origin bounded by
`galaxyRadius + armWidth`. -/
theorem galaxy_init_invariants (i : ℕ) :
    (0 ≤ GalaxyInit.densityFactor i ∧ GalaxyInit.densityFactor i ≤ 1) ∧
      Real.sqrt (GalaxyInit.posX i ^ 2 + GalaxyInit.posZ i ^ 2) ≤
        GalaxyInit.galaxyRadius + GalaxyInit.armWidth := by
  have h1 : hashR (GalaxyInit.seed i + 1) = 0 := by
    simpa using hashR_seed_add i 1
  have h3 : hashR (GalaxyInit.seed i + 3) = 0 := by
    simpa using hashR_seed_add i 3
  have h4 : hashR (GalaxyInit.seed i + 4) = 0 := by
    simpa using hashR_seed_add i 4
  have hrad : GalaxyInit.radius i = 0 := by
    rw [GalaxyInit.radius, h1]
    simp
  have hro : GalaxyInit.radiusOffset i = -8 := by
    rw [GalaxyInit.radiusOffset, h3]
    norm_num [GalaxyInit.armWidth]
  have hao : GalaxyInit.angleOffset i = -5 := by
    rw [GalaxyInit.angleOffset, h4, hrad]
    norm_num [GalaxyInit.randomness]
  have hfr : GalaxyInit.finalRadius i = -8 := by
    rw [GalaxyInit.finalRadius, hrad, hro]
    ring
  refine ⟨?_, ?_⟩
  · have hdf : GalaxyInit.densityFactor i = 1 := by
      rw [GalaxyInit.densityFactor, GalaxyInit.radialSparsity,
        GalaxyInit.angularSparsity, hro, hao]
      rw [min_eq_right]
      norm_num [GalaxyInit.armWidth, GalaxyInit.randomness]
    rw [hdf]
    norm_num
  · have hsq : GalaxyInit.posX i ^ 2 + GalaxyInit.posZ i ^ 2 = 64 := by
      rw [GalaxyInit.posX, GalaxyInit.posZ, hfr]
      linear_combination 64 * Real.sin_sq_add_cos_sq (GalaxyInit.finalAngle i)
    rw [hsq, show (64 : ℝ) = 8 ^ 2 by norm_num,
      Real.sqrt_sq (by norm_num : (0:ℝ) ≤ 8)]
    norm_num [GalaxyInit.galaxyRadius, GalaxyInit.armWidth]

/-- C3: iterating `advance(dt)` any number of times leaves every
particle's XZ distance from the rotation axis unchanged — the per-particle
update is a pure rotation about the Y axis. -/
theorem advance_preserves_radius (deltaTime : ℝ) (s : V3R × V3R) (n : ℕ) :
    GalaxyUpdate.lengthXZ (((GalaxyUpdate.advance deltaTime)^[n]) s).1 =
      GalaxyUpdate.lengthXZ s.1 := by
  induction n with
  | zero => rfl
  | succ n ih =>
      rw [Function.iterate_succ_apply', ← ih]
      generalize ((GalaxyUpdate.advance deltaTime)^[n]) s = t
      show GalaxyUpdate.lengthXZ (GalaxyUpdate.advance deltaTime t).1 =
        GalaxyUpdate.lengthXZ t.1
      simp only [GalaxyUpdate.advance, GalaxyUpdate.lengthXZ]
      rw [rotateXZ_sq]

lemma dist_sq (ship anchor : V3R) :
    Tether.dist ship anchor ^ 2 =
      (anchor.x - ship.x) ^ 2 + (anchor.y - ship.y) ^ 2 + (anchor.z - ship.z) ^ 2 :=
  Real.sq_sqrt (by positivity)

lemma outward_springImpulse (k c L δ : ℝ) (ship anchor vel : V3R)
    (hlt : L < Tether.dist ship anchor) (hD : 0 < Tether.dist ship anchor) :
    Tether.outwardComponent ship anchor
        (Tether.springImpulse k c L δ ship anchor vel) =
      (-(Tether.dist ship anchor - L) * k +
        -(Tether.radialVelocity ship anchor vel) * c) * δ * Tether.dist ship anchor := by
  have hDne : Tether.dist ship anchor ≠ 0 := ne_of_gt hD
  simp only [Tether.springImpulse, if_pos hlt, Tether.outwardComponent]
  have hstep :
      ((anchor.x - ship.x) / Tether.dist ship anchor *
          (-(Tether.dist ship anchor - L) * k +
            -(Tether.radialVelocity ship anchor vel) * c) * δ) * (anchor.x - ship.x) +
        ((anchor.y - ship.y) / Tether.dist ship anchor *
          (-(Tether.dist ship anchor - L) * k +
            -(Tether.radialVelocity ship anchor vel) * c) * δ) * (anchor.y - ship.y) +
        ((anchor.z - ship.z) / Tether.dist ship anchor *
          (-(Tether.dist ship anchor - L) * k +
            -(Tether.radialVelocity ship anchor vel) * c) * δ) * (anchor.z - ship.z) =
      (-(Tether.dist ship anchor - L) * k +
          -(Tether.radialVelocity ship anchor vel) * c) * δ *
        (((anchor.x - ship.x) ^ 2 + (anchor.y - ship.y) ^ 2 + (anchor.z - ship.z) ^ 2) /
          Tether.dist ship anchor) := by
    ring
  rw [hstep, ← dist_sq, sq, mul_div_assoc, div_self hDne, mul_one]

/-- C7 (counterexample): with the anchor 5 units from the ship, chain
length 4.9 (distance slightly above it), and the anchor moving radially
inward at speed 2, the damping term dominates the spring term and the
applied impulse points *away* from the ship (positive component along the
ship→anchor offset) — refuting "the applied force direction points from
the anchor back toward the ship". -/
theorem spring_impulse_counterexample :
    Tether.dist ⟨0, 0, 0⟩ ⟨3, 0, 4⟩ = 5 ∧ (49 : ℝ)/10 < 5 ∧
      0 < Tether.outwardComponent ⟨0, 0, 0⟩ ⟨3, 0, 4⟩
        (Tether.springImpulse 80 8 (49/10) (1/60) ⟨0, 0, 0⟩ ⟨3, 0, 4⟩
          ⟨-6/5, 0, -8/5⟩) := by
  have hdist : Tether.dist ⟨0, 0, 0⟩ ⟨3, 0, 4⟩ = 5 := by
    simp only [Tether.dist]
    rw [show ((3:ℝ) - 0) ^ 2 + ((0:ℝ) - 0) ^ 2 + ((4:ℝ) - 0) ^ 2 = 5 ^ 2 by norm_num,
      Real.sqrt_sq (by norm_num : (0:ℝ) ≤ 5)]
  refine ⟨hdist, by norm_num, ?_⟩
  have hrv : Tether.radialVelocity ⟨0, 0, 0⟩ ⟨3, 0, 4⟩ ⟨-6/5, 0, -8/5⟩ = -2 := by
    simp only [Tether.radialVelocity, hdist]
    norm_num
  rw [outward_springImpulse 80 8 (49/10) (1/60) ⟨0, 0, 0⟩ ⟨3, 0, 4⟩
      ⟨-6/5, 0, -8/5⟩ (by rw [hdist]; norm_num) (by rw [hdist]; norm_num),
    hdist, hrv]
  norm_num

/-- C7 (amended): at `distance == chainLength` exactly the spring block
applies no impulse at all; and when `distance > chainLength`, provided the
anchor's radial velocity component is non-negative (the damping term then
does not oppose the spring), the applied impulse points from the anchor
back toward the ship.  (With a large enough inward radial velocity the
damping term can dominate and reverse the direction — see the
counterexample.)  The spring term alone is always restoring. -/
theorem spring_impulse_boundary (springStiffness springDamping chainLength delta : ℝ)
    (ship anchor vel : V3R) :
    (Tether.dist ship anchor = chainLength →
      Tether.springImpulse springStiffness springDamping chainLength delta
        ship anchor vel = ⟨0, 0, 0⟩) ∧
    (chainLength < Tether.dist ship anchor → 0 ≤ chainLength →
      0 < springStiffness → 0 ≤ springDamping →
      0 ≤ Tether.radialVelocity ship anchor vel → 0 < delta →
      Tether.outwardComponent ship anchor
        (Tether.springImpulse springStiffness springDamping chainLength delta
          ship anchor vel) < 0) := by
  constructor
  · intro heq
    simp only [Tether.springImpulse, heq, lt_self_iff_false, if_false]
  · intro hlt hcl hk hc hrv hdt
    have hD : 0 < Tether.dist ship anchor := lt_of_le_of_lt hcl hlt
    rw [outward_springImpulse _ _ _ _ _ _ _ hlt hD]
    have hTF : -(Tether.dist ship anchor - chainLength) * springStiffness +
        -(Tether.radialVelocity ship anchor vel) * springDamping < 0 := by
      nlinarith
    exact mul_neg_of_neg_of_pos (mul_neg_of_neg_of_pos hTF hdt) hD

/-- C7 witness: concrete boundary and restoring cases. -/
theorem spring_impulse_boundary_witness :
    (Tether.springImpulse 80 8 5 (1/60) ⟨0, 0, 0⟩ ⟨3, 0, 4⟩ ⟨0, 0, 0⟩ = ⟨0, 0, 0⟩) ∧
      Tether.outwardComponent ⟨0, 0, 0⟩ ⟨3, 0, 4⟩
        (Tether.springImpulse 80 8 4 (1/60) ⟨0, 0, 0⟩ ⟨3, 0, 4⟩ ⟨0, 0, 0⟩) < 0 := by
  have hdist : Tether.dist ⟨0, 0, 0⟩ ⟨3, 0, 4⟩ = 5 := by
    simp only [Tether.dist]
    rw [show ((3:ℝ) - 0) ^ 2 + ((0:ℝ) - 0) ^ 2 + ((4:ℝ) - 0) ^ 2 = 5 ^ 2 by norm_num,
      Real.sqrt_sq (by norm_num : (0:ℝ) ≤ 5)]
  have hrv : Tether.radialVelocity ⟨0, 0, 0⟩ ⟨3, 0, 4⟩ ⟨0, 0, 0⟩ = 0 := by
    simp [Tether.radialVelocity]
  constructor
  · exact (spring_impulse_boundary 80 8 5 (1/60) ⟨0, 0, 0⟩ ⟨3, 0, 4⟩ ⟨0, 0, 0⟩).1 hdist
  · exact (spring_impulse_boundary 80 8 4 (1/60) ⟨0, 0, 0⟩ ⟨3, 0, 4⟩ ⟨0, 0, 0⟩).2
      (by rw [hdist]; norm_num) (by norm_num) (by norm_num) (by norm_num)
      (by rw [hrv]) (by norm_num)
